import Mathlib

/-!
Verification of the reservations booking engine.

Shallow embedding of the Rust sources:
  - src/db/models.rs      : data types and the status-string conversion
  - src/db/repository.rs  : store operations (create_reservation,
    cancel_reservation, find_available_slots)
  - src/service/reservations.rs : protobuf timestamp handling at the
    service boundary

Time instants (chrono DateTime with UTC, nanosecond precision) are
embedded as Int nanoseconds since the epoch; Uuid identifiers are
embedded as opaque Nat values. Database rows live in Lean lists;
each repository operation is a pure function from store state to
result and new store state (commit keeps the new state, rollback
returns the original state).
-/

namespace Reservations

/-- Status of a reservation, from src/db/models.rs. -/
inductive ReservationStatus
  | Confirmed
  | Cancelled
deriving DecidableEq, Repr

/-- Lowercasing used by the status conversion: models Rust
str::to_lowercase as a character-wise map. Char.toLower lowercases
the ASCII uppercase range; the Rust function is full Unicode, and the
two agree on every ASCII string, in particular on every casing of the
status words stored by this system. -/
def rustToLowercase (s : String) : String :=
  String.mk (s.data.map Char.toLower)

/-- Conversion of a stored status string to ReservationStatus,
from the From String impl in src/db/models.rs: lowercase the string,
map the string cancelled to Cancelled and every other string to
Confirmed. -/
def statusFromString (s : String) : ReservationStatus :=
  if rustToLowercase s = "cancelled" then ReservationStatus.Cancelled
  else ReservationStatus.Confirmed

/-- Client row, from src/db/models.rs. -/
structure Client where
  id : Nat
  name : String
  email : String
  created_at : Int
deriving DecidableEq, Repr

/-- Reservation row, from src/db/models.rs. -/
structure Reservation where
  id : Nat
  client_id : Nat
  start_time : Int
  end_time : Int
  status : ReservationStatus
  notes : Option String
  created_at : Int
deriving DecidableEq, Repr

/-- Transient time slot, from src/db/models.rs. -/
structure TimeSlot where
  start_time : Int
  end_time : Int
deriving DecidableEq, Repr

/-- State of the persisted store: the clients table and the
reservations table. -/
structure StoreState where
  clients : List Client
  reservations : List Reservation
deriving Repr

/-- Overlap of the half-open intervals [s1, e1) and [s2, e2): the
predicate of the tstzrange overlap operator used by the store
(src/db/repository.rs, the queries in is_slot_available and
find_available_slots) for non-empty ranges. -/
def overlaps (s1 e1 s2 e2 : Int) : Bool :=
  decide (s1 < e2) && decide (s2 < e1)

/-- Postgres database-error information observed by the code: the
name of the violated constraint, if any (sqlx db_err.constraint()). -/
structure PgDatabaseError where
  constraint : Option String
  message : String
deriving DecidableEq, Repr

/-- Low-level storage error, modelling the sqlx::Error cases the
code distinguishes: a database error carrying constraint
information, or any other storage failure. -/
inductive SqlxError
  | Database (e : PgDatabaseError)
  | Other (msg : String)
deriving DecidableEq, Repr

/-- Domain error type, from RepositoryError in src/db/repository.rs. -/
inductive RepositoryError
  | DatabaseError (e : SqlxError)
  | ReservationConflict
  | ReservationNotFound (id : Nat)
  | ClientNotFound (id : Nat)
deriving DecidableEq, Repr

/-- Modelled from the spec: the exclusion constraint
no_overlapping_reservations over (interval, status = Confirmed). The
migration DDL under db/ is not part of src/, so the constraint is
modelled from the spec, which states that the store rejects an insert
exactly when the inserted interval overlaps the interval of an
existing Confirmed reservation under the overlap predicate of the
Interval Model. -/
def violatesExclusion (rs : List Reservation) (s e : Int) : Bool :=
  rs.any (fun r =>
    decide (r.status = ReservationStatus.Confirmed)
      && overlaps r.start_time r.end_time s e)

/-- Modelled from the spec: the INSERT INTO reservations statement of
create_reservation_tx (src/db/repository.rs) evaluated against the
store schema, whose DDL is not part of src/. Per the spec the store
enforces start < end for every reservation (rejected here as a plain
database error) and the exclusion constraint
no_overlapping_reservations (rejected as a database error naming that
constraint); otherwise the row is inserted with status Confirmed and
returned. -/
def insertReservationRow (st : StoreState) (newId client_id : Nat)
    (start_time end_time : Int) (notes : Option String) (created_at : Int) :
    Except SqlxError (Reservation × StoreState) :=
  if decide (start_time < end_time) = false then
    Except.error (SqlxError.Database
      ⟨none, "range lower bound must be less than or equal to range upper bound"⟩)
  else if violatesExclusion st.reservations start_time end_time then
    Except.error (SqlxError.Database
      ⟨some "no_overlapping_reservations",
        "conflicting key value violates exclusion constraint"⟩)
  else
    let r : Reservation :=
      ⟨newId, client_id, start_time, end_time, ReservationStatus.Confirmed,
        notes, created_at⟩
    Except.ok (r, { st with reservations := st.reservations ++ [r] })

/-- Existence check for a client id: SELECT 1 FROM clients WHERE id,
from create_reservation in src/db/repository.rs. -/
def clientExists (st : StoreState) (client_id : Nat) : Bool :=
  st.clients.any (fun c => decide (c.id = client_id))

/-- Creation protocol, from create_reservation in
src/db/repository.rs: inside one transaction, check the client
exists (else ClientNotFound, nothing inserted); attempt the insert;
on success commit and return the reservation; on failure roll back
and, when the failure is a database error naming the constraint
no_overlapping_reservations, return ReservationConflict, otherwise
return the storage error wrapped as DatabaseError. The fault
parameter injects a nondeterministic storage failure at the insert
(none means the storage layer itself does not fail). The returned
state is the committed state on success and the unchanged input
state on every error path (rollback). -/
def create_reservation (st : StoreState) (fault : Option SqlxError)
    (newId client_id : Nat) (start_time end_time : Int)
    (notes : Option String) (created_at : Int) :
    Except RepositoryError Reservation × StoreState :=
  if ! clientExists st client_id then
    (Except.error (RepositoryError.ClientNotFound client_id), st)
  else
    let result : Except SqlxError (Reservation × StoreState) :=
      match fault with
      | some err => Except.error err
      | none => insertReservationRow st newId client_id start_time end_time notes created_at
    match result with
    | Except.ok (r, st2) => (Except.ok r, st2)
    | Except.error err =>
      match err with
      | SqlxError.Database dbErr =>
        if dbErr.constraint = some "no_overlapping_reservations" then
          (Except.error RepositoryError.ReservationConflict, st)
        else
          (Except.error (RepositoryError.DatabaseError err), st)
      | other => (Except.error (RepositoryError.DatabaseError other), st)

/-- Row filter of the conditional UPDATE in cancel_reservation:
id matches and status is confirmed. -/
def cancelMatch (id : Nat) (r : Reservation) : Bool :=
  decide (r.id = id) && decide (r.status = ReservationStatus.Confirmed)

/-- Cancellation, from cancel_reservation in src/db/repository.rs:
UPDATE reservations SET status = cancelled WHERE id matches AND
status = confirmed; if no row was affected, check whether the id
exists at all: if not, ReservationNotFound, otherwise (already
cancelled) succeed as a no-op. -/
def cancel_reservation (st : StoreState) (id : Nat) :
    Except RepositoryError Unit × StoreState :=
  let rows_affected := st.reservations.countP (cancelMatch id)
  let updated : StoreState :=
    { st with reservations := st.reservations.map (fun r =>
        if cancelMatch id r then { r with status := ReservationStatus.Cancelled }
        else r) }
  if rows_affected = 0 then
    if st.reservations.any (fun r => decide (r.id = id)) then
      (Except.ok (), updated)
    else
      (Except.error (RepositoryError.ReservationNotFound id), updated)
  else
    (Except.ok (), updated)

/-- One hour, in nanoseconds: chrono Duration hours 1, at the
nanosecond resolution of DateTime. -/
def oneHour : Int := 3600000000000

/-- Three-clause slot-overlap test of the availability scanner, from
the closure inside find_available_slots in src/db/repository.rs. -/
def slotOverlapCheck (current_time slot_end res_start res_end : Int) : Bool :=
  (decide (current_time ≥ res_start) && decide (current_time < res_end))
    || (decide (slot_end > res_start) && decide (slot_end ≤ res_end))
    || (decide (current_time ≤ res_start) && decide (slot_end ≥ res_end))

/-- Tiling loop of find_available_slots (src/db/repository.rs): while
current_time < end_date, form the candidate slot of one hour, keep it
when it passes the overlap test against every fetched reservation,
and advance current_time by one hour. -/
def findSlotsLoop (existing : List Reservation) (current_time end_date : Int) :
    List TimeSlot :=
  if h : current_time < end_date then
    let slot_end := current_time + oneHour
    let is_available :=
      ! existing.any (fun r => slotOverlapCheck current_time slot_end r.start_time r.end_time)
    let rest := findSlotsLoop existing (current_time + oneHour) end_date
    if is_available then ⟨current_time, slot_end⟩ :: rest else rest
  else []
termination_by (end_date - current_time).toNat
decreasing_by
  simp only [oneHour]
  omega

/-- Number of iterations of the tiling loop: the loop of
find_available_slots runs once per candidate start time, while
current_time < end_date. -/
def numIters (current_time end_date : Int) : Nat :=
  if h : current_time < end_date then numIters (current_time + oneHour) end_date + 1
  else 0
termination_by (end_date - current_time).toNat
decreasing_by
  simp only [oneHour]
  omega

/-- Availability scanner, from find_available_slots in
src/db/repository.rs: fetch the confirmed reservations whose
interval overlaps the window (the SQL WHERE clause; the SQL ORDER BY
start_time is dropped here because the loop only asks whether any
fetched reservation overlaps a candidate, which is order-invariant),
then run the tiling loop. -/
def find_available_slots (st : StoreState) (start_date end_date : Int) :
    List TimeSlot :=
  let existing := st.reservations.filter (fun r =>
    decide (r.status = ReservationStatus.Confirmed)
      && overlaps r.start_time r.end_time start_date end_date)
  findSlotsLoop existing start_date end_date

/-- One write step of the engine against the store: adding a client
(create_client in src/db/repository.rs, which only inserts into the
clients table), an attempt of the creation protocol (with any
injected storage fault and any arguments), or a cancellation. -/
inductive Step : StoreState → StoreState → Prop
  | create_client (st : StoreState) (c : Client) :
      Step st { st with clients := st.clients ++ [c] }
  | create_res (st : StoreState) (fault : Option SqlxError)
      (newId client_id : Nat) (start_time end_time : Int)
      (notes : Option String) (created_at : Int) :
      Step st (create_reservation st fault newId client_id start_time end_time notes created_at).2
  | cancel (st : StoreState) (id : Nat) :
      Step st (cancel_reservation st id).2

/-- Reachable store states: the empty store, closed under engine
write steps. -/
inductive Reachable : StoreState → Prop
  | init : Reachable ⟨[], []⟩
  | step {st st2 : StoreState} : Reachable st → Step st st2 → Reachable st2

/-- Overlap of the intervals of two reservations, in the form used by
the no-overlap invariant of the spec. -/
def IntervalsOverlap (r1 r2 : Reservation) : Prop :=
  r1.start_time < r2.end_time ∧ r2.start_time < r1.end_time

/-- No-overlap invariant: any two distinct reservations of the store
that both have status Confirmed have non-overlapping intervals, in
both orders of the pair. -/
def NoOverlap (st : StoreState) : Prop :=
  st.reservations.Pairwise (fun r1 r2 =>
    r1.status = ReservationStatus.Confirmed →
    r2.status = ReservationStatus.Confirmed →
    ¬ IntervalsOverlap r1 r2 ∧ ¬ IntervalsOverlap r2 r1)

/-- Protobuf timestamp message: seconds (i64) and nanos (i32), from
prost_types::Timestamp as used in src/service/reservations.rs. -/
structure ProtoTimestamp where
  seconds : Int
  nanos : Int
deriving DecidableEq, Repr

/-- Rust cast of the i32 nanos field to u32 (ts.nanos as u32 in
timestamp_to_datetime): reinterpretation modulo 2^32. -/
def nanosAsU32 (n : Int) : Int :=
  n % 4294967296

/-- Modelled from the documented behaviour of the chrono library
(an external dependency, not part of src/): DateTime from_timestamp
returns a value iff the seconds lie in the representable range of
chrono dates and the nanosecond part is below two billion; the value
is the instant in nanoseconds since the epoch. -/
def chronoFromTimestamp (secs nsecs : Int) : Option Int :=
  if decide (-8334601228800 ≤ secs) && decide (secs ≤ 8210266876799)
      && decide (nsecs < 2000000000) then
    some (secs * 1000000000 + nsecs)
  else
    none

/-- Timestamp conversion at the service boundary, from
timestamp_to_datetime in src/service/reservations.rs:
DateTime::from_timestamp(seconds, nanos as u32).unwrap_or(Utc::now()).
The wall clock is passed in as the now parameter. -/
def timestamp_to_datetime (now : Int) (ts : ProtoTimestamp) : Int :=
  match chronoFromTimestamp ts.seconds (nanosAsU32 ts.nanos) with
  | some dt => dt
  | none => now

/-- Slot-time validation of the service create_reservation handler
(src/service/reservations.rs, extraction of start and end from the
request slot): a missing timestamp is InvalidArgument; supplied
timestamps are converted with timestamp_to_datetime; then start must
be strictly before end, else InvalidArgument. Errors are the
InvalidArgument message strings of the handler. -/
def parseSlotTimes (now : Int) (slot_start slot_end : Option ProtoTimestamp) :
    Except String (Int × Int) :=
  match slot_start with
  | none => Except.error "Start time is required"
  | some ts1 =>
    match slot_end with
    | none => Except.error "End time is required"
    | some ts2 =>
      let s := timestamp_to_datetime now ts1
      let e := timestamp_to_datetime now ts2
      if decide (s ≥ e) then Except.error "Start time must be before end time"
      else Except.ok (s, e)

/-! ## Theorems -/

/-- C3: for every reservation interval with res_start < res_end and
every one-hour candidate slot starting at t, the three-clause overlap
test of the scanner agrees exactly with the interval-model overlap
predicate used by the store. -/
theorem scanner_overlap_test_equiv (t res_start res_end : Int)
    (h : res_start < res_end) :
    slotOverlapCheck t (t + oneHour) res_start res_end
      = overlaps t (t + oneHour) res_start res_end := by
  rw [Bool.eq_iff_iff]
  simp only [slotOverlapCheck, overlaps, oneHour, Bool.or_eq_true, Bool.and_eq_true,
    decide_eq_true_eq]
  omega

/-- Witness for C3 at a concrete input. -/
theorem scanner_overlap_test_equiv_witness :
    (0 : Int) < 10 ∧
      slotOverlapCheck 3 (3 + oneHour) 0 10 = overlaps 3 (3 + oneHour) 0 10 :=
  ⟨by decide, scanner_overlap_test_equiv 3 0 10 (by decide)⟩

/-- C5: a reservation that touches a one-hour candidate slot only at
a shared endpoint (reservation end equal to the slot start, or
reservation start equal to the slot end) fails the scanner overlap
test, and a scan of the window equal to that single slot against just
that reservation reports the slot free. -/
theorem boundary_touch_is_free (t res_start res_end : Int)
    (h1 : res_start < res_end)
    (h2 : res_end = t ∨ res_start = t + oneHour) :
    slotOverlapCheck t (t + oneHour) res_start res_end = false ∧
      ∀ r : Reservation, r.start_time = res_start → r.end_time = res_end →
        findSlotsLoop [r] t (t + oneHour) = [⟨t, t + oneHour⟩] := by
  have hchk : slotOverlapCheck t (t + oneHour) res_start res_end = false := by
    rw [← Bool.not_eq_true]
    simp only [slotOverlapCheck, oneHour, Bool.or_eq_true, Bool.and_eq_true,
      decide_eq_true_eq] at *
    omega
  refine ⟨hchk, ?_⟩
  intro r hs he
  have hlt : t < t + oneHour := by simp only [oneHour]; omega
  have hend : findSlotsLoop [r] (t + oneHour) (t + oneHour) = [] := by
    rw [findSlotsLoop]
    simp
  rw [findSlotsLoop, dif_pos hlt]
  simp only [List.any_cons, List.any_nil, hs, he, hchk, Bool.or_false,
    Bool.not_false, if_true, hend]

/-- Witness for C5 at a concrete input: a reservation ending exactly
at the slot start. -/
theorem boundary_touch_is_free_witness :
    ((-5 : Int) < 0 ∧ ((0 : Int) = 0 ∨ (-5 : Int) = 0 + oneHour)) ∧
      slotOverlapCheck 0 (0 + oneHour) (-5) 0 = false :=
  ⟨⟨by decide, Or.inl rfl⟩,
    (boundary_touch_is_free 0 (-5) 0 (by decide) (Or.inl rfl)).1⟩

/-- C6: create_reservation with a client id that does not exist in
the clients table fails with ClientNotFound and leaves the store
unchanged, whatever the storage layer would have done. -/
theorem create_reservation_unknown_client (st : StoreState)
    (fault : Option SqlxError) (newId client_id : Nat)
    (start_time end_time : Int) (notes : Option String) (created_at : Int)
    (h : clientExists st client_id = false) :
    create_reservation st fault newId client_id start_time end_time notes created_at
      = (Except.error (RepositoryError.ClientNotFound client_id), st) := by
  simp [create_reservation, h]

/-- Witness for C6 at a concrete input: the empty store. -/
theorem create_reservation_unknown_client_witness :
    clientExists ⟨[], []⟩ 7 = false ∧
      create_reservation ⟨[], []⟩ none 1 7 0 oneHour none 0
        = (Except.error (RepositoryError.ClientNotFound 7), ⟨[], []⟩) :=
  ⟨rfl, create_reservation_unknown_client ⟨[], []⟩ none 1 7 0 oneHour none 0 rfl⟩

/-- Positivity of the slot duration. -/
theorem oneHour_pos : (0 : Int) < oneHour := by decide

/-- The tiling loop iterates at least once on a non-empty window. -/
theorem numIters_pos (c f : Int) (h : c < f) : 0 < numIters c f := by
  rw [numIters, dif_pos h]
  omega

/-- Closed form of the tiling loop with no reservations fetched:
every candidate is emitted, and the candidates are the consecutive
one-hour slots starting at the window start. -/
theorem findSlotsLoop_nil (c f : Int) :
    findSlotsLoop [] c f
      = (List.range (numIters c f)).map
          (fun k : Nat => (⟨c + (k : Int) * oneHour, c + (k : Int) * oneHour + oneHour⟩ : TimeSlot)) := by
  induction c, f using numIters.induct with
  | case1 c f h ih =>
    rw [findSlotsLoop, dif_pos h, numIters, dif_pos h]
    simp only [List.any_nil, Bool.not_false, if_true]
    rw [ih, List.range_succ_eq_map, List.map_cons, List.map_map]
    congr 1
    · simp
    · apply List.map_congr_left
      intro k hk
      simp only [Function.comp_apply, TimeSlot.mk.injEq]
      push_cast
      constructor <;> ring
  | case2 c f h =>
    rw [findSlotsLoop, dif_neg h, numIters, dif_neg h]
    simp

/-- The loop stops only once the current start time reaches the
window end. -/
theorem numIters_reaches (c f : Int) : f ≤ c + (numIters c f : Int) * oneHour := by
  induction c, f using numIters.induct with
  | case1 c f h ih =>
    rw [numIters, dif_pos h]
    simp only [oneHour] at ih ⊢
    push_cast
    omega
  | case2 c f h =>
    rw [numIters, dif_neg h]
    simp only [oneHour]
    omega

/-- Every iteration of the loop starts strictly inside the window. -/
theorem numIters_lt (c f : Int) :
    ∀ k : Nat, k < numIters c f → c + (k : Int) * oneHour < f := by
  induction c, f using numIters.induct with
  | case1 c f h ih =>
    intro k hk
    rw [numIters, dif_pos h] at hk
    cases k with
    | zero => simpa using h
    | succ j =>
      have hj := ih j (by omega)
      simp only [oneHour] at hj ⊢
      push_cast at hj ⊢
      omega
  | case2 c f h =>
    intro k hk
    rw [numIters, dif_neg h] at hk
    omega

/-- When the window length is not a multiple of one hour, the final
start time of the loop strictly passes the window end. -/
theorem numIters_exceeds (c f : Int) (h : c < f)
    (hnd : ¬ ((oneHour : Int) ∣ (f - c))) :
    f < c + (numIters c f : Int) * oneHour := by
  have hr := numIters_reaches c f
  simp only [oneHour] at hr hnd ⊢
  omega

/-- The slots emitted against any fetched reservation list form a
sublist of the full tiling: filtering only removes candidates, never
reshapes or reorders them. -/
theorem findSlotsLoop_sublist (rs : List Reservation) (c f : Int) :
    (findSlotsLoop rs c f).Sublist (findSlotsLoop [] c f) := by
  induction c, f using numIters.induct with
  | case1 c f h ih =>
    rw [findSlotsLoop, dif_pos h]
    conv_rhs => rw [findSlotsLoop, dif_pos h]
    simp only [List.any_nil, Bool.not_false, if_true]
    split
    · exact ih.cons₂ _
    · exact ih.cons _
  | case2 c f h =>
    have h2 : findSlotsLoop rs c f = [] := by rw [findSlotsLoop, dif_neg h]
    rw [h2]
    exact List.nil_sublist _

/-- C4: on a non-empty window the tiling loop runs at least once; with
no reservations fetched it emits exactly the consecutive one-hour
candidate slots whose start times are the window start plus a whole
number of hours, in ascending order of start time; every emitted slot
starts strictly before the window end and lasts exactly one hour; the
loop stops only once the start time reaches the window end, and when
the window length is not a whole number of hours the last emitted
candidate ends strictly after the window end rather than being
dropped or truncated. -/
theorem scanner_tiling (c f : Int) (hcf : c < f) :
    0 < numIters c f
    ∧ findSlotsLoop [] c f
        = (List.range (numIters c f)).map
            (fun k : Nat => (⟨c + (k : Int) * oneHour, c + (k : Int) * oneHour + oneHour⟩ : TimeSlot))
    ∧ (∀ ts ∈ findSlotsLoop [] c f,
        ts.start_time < f ∧ ts.end_time = ts.start_time + oneHour)
    ∧ List.Pairwise (fun a b : TimeSlot => a.start_time < b.start_time)
        (findSlotsLoop [] c f)
    ∧ f ≤ c + (numIters c f : Int) * oneHour
    ∧ (¬ ((oneHour : Int) ∣ (f - c)) →
        ∃ ts ∈ findSlotsLoop [] c f, f < ts.end_time)
    ∧ (∀ rs : List Reservation, (findSlotsLoop rs c f).Sublist (findSlotsLoop [] c f)) := by
  refine ⟨numIters_pos c f hcf, findSlotsLoop_nil c f, ?_, ?_, numIters_reaches c f, ?_,
    fun rs => findSlotsLoop_sublist rs c f⟩
  · intro ts hts
    rw [findSlotsLoop_nil] at hts
    simp only [List.mem_map, List.mem_range] at hts
    obtain ⟨k, hk, rfl⟩ := hts
    exact ⟨numIters_lt c f k hk, rfl⟩
  · rw [findSlotsLoop_nil]
    refine List.pairwise_map.mpr ?_
    refine (List.pairwise_lt_range _).imp ?_
    intro a b hab
    simp only [oneHour]
    omega
  · intro hnd
    have hpos := numIters_pos c f hcf
    have hexc := numIters_exceeds c f hcf hnd
    refine ⟨⟨c + ((numIters c f - 1 : Nat) : Int) * oneHour,
      c + ((numIters c f - 1 : Nat) : Int) * oneHour + oneHour⟩, ?_, ?_⟩
    · rw [findSlotsLoop_nil]
      have hmem : numIters c f - 1 ∈ List.range (numIters c f) :=
        List.mem_range.mpr (by omega)
      exact List.mem_map_of_mem _ hmem
    · simp only [oneHour] at hexc ⊢
      omega

/-- Witness for C4 at a concrete input: a window of one nanosecond,
whose length is not a multiple of one hour. -/
theorem scanner_tiling_witness :
    (0 : Int) < 1 ∧ 0 < numIters 0 1 :=
  ⟨by decide, (scanner_tiling 0 1 (by decide)).1⟩

/-- C2: for create_reservation with an existing client: a successful
insert commits and returns the created reservation; an insert
rejected by the exclusion constraint rolls back and yields
ReservationConflict; a storage failure naming the constraint
no_overlapping_reservations also yields ReservationConflict and never
a raw storage error; any other storage failure rolls back and is
surfaced as DatabaseError with the underlying error preserved. -/
theorem create_reservation_outcome (st : StoreState) (fault : Option SqlxError)
    (newId client_id : Nat) (start_time end_time : Int)
    (notes : Option String) (created_at : Int)
    (hclient : clientExists st client_id = true) :
    (fault = none → start_time < end_time →
      violatesExclusion st.reservations start_time end_time = false →
      create_reservation st fault newId client_id start_time end_time notes created_at
        = (Except.ok ⟨newId, client_id, start_time, end_time,
              ReservationStatus.Confirmed, notes, created_at⟩,
            { st with reservations := st.reservations
                ++ [⟨newId, client_id, start_time, end_time,
                      ReservationStatus.Confirmed, notes, created_at⟩] }))
    ∧ (fault = none →
      violatesExclusion st.reservations start_time end_time = true →
      start_time < end_time →
      create_reservation st fault newId client_id start_time end_time notes created_at
        = (Except.error RepositoryError.ReservationConflict, st))
    ∧ (∀ info : PgDatabaseError, fault = some (SqlxError.Database info) →
      info.constraint = some "no_overlapping_reservations" →
      create_reservation st fault newId client_id start_time end_time notes created_at
        = (Except.error RepositoryError.ReservationConflict, st))
    ∧ (∀ err : SqlxError, fault = some err →
      (∀ info : PgDatabaseError, err = SqlxError.Database info →
        info.constraint ≠ some "no_overlapping_reservations") →
      create_reservation st fault newId client_id start_time end_time notes created_at
        = (Except.error (RepositoryError.DatabaseError err), st)) := by
  refine ⟨?_, ?_, ?_, ?_⟩
  · intro hf hlt hviol
    subst hf
    simp [create_reservation, hclient, insertReservationRow, hlt, hviol]
  · intro hf hviol hlt
    subst hf
    simp [create_reservation, hclient, insertReservationRow, hlt, hviol]
  · intro info hf hname
    subst hf
    simp [create_reservation, hclient, hname]
  · intro err hf hnc
    subst hf
    cases err with
    | Database info =>
      have hne := hnc info rfl
      simp [create_reservation, hclient, hne]
    | Other msg =>
      simp [create_reservation, hclient]

/-- Witness for C2 at a concrete input: one client, an empty
reservations table, a one-hour reservation. -/
theorem create_reservation_outcome_witness :
    clientExists ⟨[⟨1, "n", "e", 0⟩], []⟩ 1 = true ∧
      create_reservation ⟨[⟨1, "n", "e", 0⟩], []⟩ none 2 1 0 oneHour none 0
        = (Except.ok ⟨2, 1, 0, oneHour, ReservationStatus.Confirmed, none, 0⟩,
            ⟨[⟨1, "n", "e", 0⟩],
              [⟨2, 1, 0, oneHour, ReservationStatus.Confirmed, none, 0⟩]⟩) :=
  ⟨by decide,
    (create_reservation_outcome ⟨[⟨1, "n", "e", 0⟩], []⟩ none 2 1 0 oneHour
        none 0 (by decide)).1 rfl (by decide) rfl⟩

/-- A map that fixes every element of a list leaves the list
unchanged. -/
theorem map_fixes_eq_self {α : Type} (l : List α) (f : α → α)
    (h : ∀ a ∈ l, f a = a) : l.map f = l := by
  induction l with
  | nil => rfl
  | cons a t ih =>
    simp only [List.map_cons]
    rw [h a (by simp), ih (fun b hb => h b (by simp [hb]))]

/-- The state produced by cancel_reservation is always the UPDATE
image of the input state, on every control path. -/
theorem cancel_reservation_state (st : StoreState) (id : Nat) :
    (cancel_reservation st id).2.reservations
      = st.reservations.map (fun r =>
          if cancelMatch id r then { r with status := ReservationStatus.Cancelled }
          else r) := by
  simp only [cancel_reservation]
  split
  · split <;> rfl
  · rfl

/-- The UPDATE of cancel_reservation never changes the id of a row. -/
theorem cancelApply_id (id : Nat) (r : Reservation) :
    (if cancelMatch id r then { r with status := ReservationStatus.Cancelled }
      else r).id = r.id := by
  split <;> rfl

/-- cancel_reservation succeeds whenever some row carries the id. -/
theorem cancel_ok_of_mem (st : StoreState) (id : Nat)
    (h : ∃ r ∈ st.reservations, r.id = id) :
    (cancel_reservation st id).1 = Except.ok () := by
  obtain ⟨r, hr, hid⟩ := h
  simp only [cancel_reservation]
  by_cases h0 : st.reservations.countP (cancelMatch id) = 0
  · rw [if_pos h0, if_pos (List.any_eq_true.mpr ⟨r, hr, by simp [hid]⟩)]
  · rw [if_neg h0]

/-- C7: cancel_reservation performs the conditional UPDATE and then:
if a confirmed row with the id exists, it succeeds and that row is
now Cancelled; if no row carries the id at all, it fails with
ReservationNotFound and the state is unchanged; if rows with the id
exist but are all already Cancelled, it succeeds as a no-op leaving
the state unchanged; and cancelling a confirmed reservation twice in
sequence succeeds both times. -/
theorem cancel_reservation_outcome (st : StoreState) (id : Nat) :
    (∀ r ∈ st.reservations, r.id = id → r.status = ReservationStatus.Confirmed →
      (cancel_reservation st id).1 = Except.ok ()
        ∧ { r with status := ReservationStatus.Cancelled }
            ∈ (cancel_reservation st id).2.reservations)
    ∧ ((∀ r ∈ st.reservations, r.id ≠ id) →
      cancel_reservation st id
        = (Except.error (RepositoryError.ReservationNotFound id), st))
    ∧ ((∃ r ∈ st.reservations, r.id = id) →
      (∀ r ∈ st.reservations, r.id = id → r.status = ReservationStatus.Cancelled) →
      cancel_reservation st id = (Except.ok (), st))
    ∧ ((∃ r ∈ st.reservations, r.id = id ∧ r.status = ReservationStatus.Confirmed) →
      (cancel_reservation st id).1 = Except.ok ()
        ∧ (cancel_reservation (cancel_reservation st id).2 id).1 = Except.ok ()) := by
  refine ⟨?_, ?_, ?_, ?_⟩
  · intro r hr hid hst
    have hmatch : cancelMatch id r = true := by simp [cancelMatch, hid, hst]
    have h0 : st.reservations.countP (cancelMatch id) ≠ 0 := by
      intro hz
      rw [List.countP_eq_zero] at hz
      exact absurd hmatch (hz r hr)
    constructor
    · simp only [cancel_reservation]
      rw [if_neg h0]
    · rw [cancel_reservation_state]
      have himg :
          (if cancelMatch id r then { r with status := ReservationStatus.Cancelled }
            else r) = { r with status := ReservationStatus.Cancelled } := if_pos hmatch
      exact himg ▸ List.mem_map_of_mem _ hr
  · intro hall
    have h0 : st.reservations.countP (cancelMatch id) = 0 := by
      rw [List.countP_eq_zero]
      intro a ha
      simp [cancelMatch, hall a ha]
    have hany : st.reservations.any (fun r => decide (r.id = id)) = false := by
      rw [List.any_eq_false]
      intro a ha
      simp [hall a ha]
    have hmap : st.reservations.map (fun r =>
        if cancelMatch id r then { r with status := ReservationStatus.Cancelled }
        else r) = st.reservations := by
      apply map_fixes_eq_self
      intro a ha
      rw [if_neg (by simp [cancelMatch, hall a ha])]
    simp only [cancel_reservation]
    rw [if_pos h0, if_neg (by simp [hany]), hmap]
  · intro hex hall
    obtain ⟨r, hr, hid⟩ := hex
    have h0 : st.reservations.countP (cancelMatch id) = 0 := by
      rw [List.countP_eq_zero]
      intro a ha
      by_cases hida : a.id = id
      · simp [cancelMatch, hida, hall a ha hida]
      · simp [cancelMatch, hida]
    have hmap : st.reservations.map (fun r =>
        if cancelMatch id r then { r with status := ReservationStatus.Cancelled }
        else r) = st.reservations := by
      apply map_fixes_eq_self
      intro a ha
      refine if_neg ?_
      by_cases hida : a.id = id
      · simp [cancelMatch, hida, hall a ha hida]
      · simp [cancelMatch, hida]
    simp only [cancel_reservation]
    rw [if_pos h0, if_pos (List.any_eq_true.mpr ⟨r, hr, by simp [hid]⟩), hmap]
  · intro hex
    obtain ⟨r, hr, hid, hst⟩ := hex
    refine ⟨cancel_ok_of_mem st id ⟨r, hr, hid⟩, ?_⟩
    apply cancel_ok_of_mem
    refine ⟨(if cancelMatch id r then { r with status := ReservationStatus.Cancelled }
      else r), ?_, ?_⟩
    · rw [cancel_reservation_state]
      exact List.mem_map_of_mem _ hr
    · rw [cancelApply_id]
      exact hid

/-- Witness for C7 at a concrete input: a store holding one confirmed
reservation, cancelled twice. -/
theorem cancel_reservation_outcome_witness :
    ((⟨1, 1, 0, oneHour, ReservationStatus.Confirmed, none, 0⟩ : Reservation)
        ∈ (⟨[], [⟨1, 1, 0, oneHour, ReservationStatus.Confirmed, none, 0⟩]⟩
            : StoreState).reservations
      ∧ (1 : Nat) = 1 ∧ ReservationStatus.Confirmed = ReservationStatus.Confirmed)
    ∧ (cancel_reservation
        ⟨[], [⟨1, 1, 0, oneHour, ReservationStatus.Confirmed, none, 0⟩]⟩ 1).1
        = Except.ok ()
    ∧ (cancel_reservation
        (cancel_reservation
          ⟨[], [⟨1, 1, 0, oneHour, ReservationStatus.Confirmed, none, 0⟩]⟩ 1).2 1).1
        = Except.ok () :=
  ⟨⟨by simp, rfl, rfl⟩,
    (cancel_reservation_outcome
      ⟨[], [⟨1, 1, 0, oneHour, ReservationStatus.Confirmed, none, 0⟩]⟩ 1).2.2.2
      ⟨⟨1, 1, 0, oneHour, ReservationStatus.Confirmed, none, 0⟩, by simp, rfl, rfl⟩⟩

/-- Every outcome of create_reservation keeps the pre-existing rows:
the state is either unchanged (rollback) or extended by the new row
(commit). -/
theorem create_reservation_mem_mono (st : StoreState) (fault : Option SqlxError)
    (newId client_id : Nat) (start_time end_time : Int)
    (notes : Option String) (created_at : Int) :
    ∀ r ∈ st.reservations,
      r ∈ (create_reservation st fault newId client_id start_time end_time
            notes created_at).2.reservations := by
  intro r hr
  by_cases hc : clientExists st client_id = true
  · cases fault with
    | some err =>
      cases err with
      | Database info =>
        by_cases hname : info.constraint = some "no_overlapping_reservations" <;>
          simp [create_reservation, hc, hname, hr]
      | Other msg => simp [create_reservation, hc, hr]
    | none =>
      by_cases hse : decide (start_time < end_time) = false
      · simp [create_reservation, hc, insertReservationRow, hse, hr]
      · by_cases hviol : violatesExclusion st.reservations start_time end_time = true
        · simp [create_reservation, hc, insertReservationRow, hse, hviol, hr]
        · simp [create_reservation, hc, insertReservationRow, hse, hviol, hr]
  · simp [create_reservation, hc, hr]

/-- create_reservation preserves the no-overlap invariant: on commit
the inserted row was accepted by the exclusion constraint, so it
overlaps no confirmed row; on every error path the state is
unchanged. -/
theorem noOverlap_create (st : StoreState) (fault : Option SqlxError)
    (newId client_id : Nat) (start_time end_time : Int)
    (notes : Option String) (created_at : Int) (h : NoOverlap st) :
    NoOverlap (create_reservation st fault newId client_id start_time end_time
      notes created_at).2 := by
  by_cases hc : clientExists st client_id = true
  · cases fault with
    | some err =>
      cases err with
      | Database info =>
        by_cases hname : info.constraint = some "no_overlapping_reservations" <;>
          simp only [create_reservation, hc, hname] <;> simpa using h
      | Other msg =>
        simp only [create_reservation, hc]
        simpa using h
    | none =>
      by_cases hse : decide (start_time < end_time) = false
      · simp only [create_reservation, hc, insertReservationRow, hse]
        simpa using h
      · by_cases hviol : violatesExclusion st.reservations start_time end_time = true
        · simp only [create_reservation, hc, insertReservationRow, hse, hviol]
          simpa using h
        · have hfree : ∀ a ∈ st.reservations,
              a.status = ReservationStatus.Confirmed →
              ¬ (a.start_time < end_time ∧ start_time < a.end_time) := by
            intro a ha hconf hov
            apply absurd hviol
            simp only [ne_eq, not_not]
            refine List.any_eq_true.mpr ⟨a, ha, ?_⟩
            simp [overlaps, hconf, hov.1, hov.2]
          simp only [create_reservation, hc, insertReservationRow, hse, hviol]
          simp only [Bool.not_eq_true] at hviol
          unfold NoOverlap at h ⊢
          simp only [NoOverlap, Bool.not_true, if_neg, reduceIte]
          refine List.pairwise_append.mpr ⟨h, List.pairwise_singleton _ _, ?_⟩
          intro a ha b hb hconfa hconfb
          simp only [List.mem_singleton] at hb
          subst hb
          have := hfree a ha hconfa
          constructor
          · intro hov
            exact this ⟨hov.1, hov.2⟩
          · intro hov
            exact this ⟨hov.2, hov.1⟩
  · simp only [create_reservation, hc]
    simpa using h

/-- cancel_reservation preserves the no-overlap invariant: the UPDATE
changes only statuses, and only from Confirmed to Cancelled. -/
theorem noOverlap_cancel (st : StoreState) (id : Nat) (h : NoOverlap st) :
    NoOverlap (cancel_reservation st id).2 := by
  unfold NoOverlap at h ⊢
  rw [cancel_reservation_state]
  refine List.pairwise_map.mpr (h.imp ?_)
  intro a b hab hconfa hconfb
  have ha : (if cancelMatch id a then { a with status := ReservationStatus.Cancelled }
      else a) = a := by
    by_cases hm : cancelMatch id a = true
    · rw [if_pos hm] at hconfa
      exact absurd hconfa (by simp)
    · exact if_neg hm
  have hb : (if cancelMatch id b then { b with status := ReservationStatus.Cancelled }
      else b) = b := by
    by_cases hm : cancelMatch id b = true
    · rw [if_pos hm] at hconfb
      exact absurd hconfb (by simp)
    · exact if_neg hm
  rw [ha] at hconfa ⊢
  rw [hb] at hconfb ⊢
  exact hab hconfa hconfb

/-- C1: every state of the store reachable through the write
operations of the engine (client creation, the creation protocol with
any injected storage fault, cancellation) satisfies the no-overlap
invariant — no two confirmed reservations have overlapping intervals —
and every single write step of the engine preserves the invariant. -/
theorem no_overlap_invariant :
    (∀ st : StoreState, Reachable st → NoOverlap st)
    ∧ ∀ st st2 : StoreState, Step st st2 → NoOverlap st → NoOverlap st2 := by
  have hstep : ∀ st st2 : StoreState, Step st st2 → NoOverlap st → NoOverlap st2 := by
    intro st st2 hs h
    cases hs with
    | create_client c => exact h
    | create_res fault newId client_id start_time end_time notes created_at =>
      exact noOverlap_create _ fault newId client_id start_time end_time notes
        created_at h
    | cancel id => exact noOverlap_cancel _ id h
  refine ⟨?_, hstep⟩
  intro st h
  induction h with
  | init => exact List.Pairwise.nil
  | step hre hs ih => exact hstep _ _ hs ih

/-- Witness for C1 at a concrete reachable state: the store after one
client creation and one reservation creation. -/
theorem no_overlap_invariant_witness :
    NoOverlap (create_reservation ⟨[⟨1, "n", "e", 0⟩], []⟩ none 2 1 0 oneHour
      none 0).2 :=
  no_overlap_invariant.1 _
    (Reachable.step
      (Reachable.step Reachable.init
        (Step.create_client ⟨[], []⟩ ⟨1, "n", "e", 0⟩))
      (Step.create_res ⟨[⟨1, "n", "e", 0⟩], []⟩ none 2 1 0 oneHour none 0))

/-- C8: across every write step of the engine, each pre-existing
reservation either survives completely unchanged, or was Confirmed
and survives with only its status changed to Cancelled: Cancelled is
terminal, and no field other than status is ever mutated after
creation. -/
theorem reservation_mutation_discipline (st st2 : StoreState) (hs : Step st st2) :
    ∀ r ∈ st.reservations,
      r ∈ st2.reservations
        ∨ (r.status = ReservationStatus.Confirmed
            ∧ { r with status := ReservationStatus.Cancelled } ∈ st2.reservations) := by
  cases hs with
  | create_client c =>
    intro r hr
    exact Or.inl hr
  | create_res fault newId client_id start_time end_time notes created_at =>
    intro r hr
    exact Or.inl (create_reservation_mem_mono st fault newId client_id start_time
      end_time notes created_at r hr)
  | cancel id =>
    intro r hr
    by_cases hm : cancelMatch id r = true
    · right
      have hconf : r.status = ReservationStatus.Confirmed := by
        simp only [cancelMatch, Bool.and_eq_true, decide_eq_true_eq] at hm
        exact hm.2
      refine ⟨hconf, ?_⟩
      rw [cancel_reservation_state]
      have himg : (if cancelMatch id r then
          { r with status := ReservationStatus.Cancelled } else r)
          = { r with status := ReservationStatus.Cancelled } := if_pos hm
      exact himg ▸ List.mem_map_of_mem _ hr
    · left
      rw [cancel_reservation_state]
      have himg : (if cancelMatch id r then
          { r with status := ReservationStatus.Cancelled } else r) = r :=
        if_neg hm
      exact himg ▸ List.mem_map_of_mem _ hr

/-- Witness for C8 at a concrete step: cancelling the only confirmed
reservation of a store. -/
theorem reservation_mutation_discipline_witness :
    ((⟨1, 1, 0, oneHour, ReservationStatus.Confirmed, none, 0⟩ : Reservation)
        ∈ (⟨[], [⟨1, 1, 0, oneHour, ReservationStatus.Confirmed, none, 0⟩]⟩
            : StoreState).reservations)
    ∧ ((⟨1, 1, 0, oneHour, ReservationStatus.Confirmed, none, 0⟩ : Reservation)
          ∈ (cancel_reservation
              ⟨[], [⟨1, 1, 0, oneHour, ReservationStatus.Confirmed, none, 0⟩]⟩
              1).2.reservations
        ∨ ((⟨1, 1, 0, oneHour, ReservationStatus.Confirmed, none, 0⟩
              : Reservation).status = ReservationStatus.Confirmed
            ∧ ({ (⟨1, 1, 0, oneHour, ReservationStatus.Confirmed, none, 0⟩
                  : Reservation) with status := ReservationStatus.Cancelled })
              ∈ (cancel_reservation
                  ⟨[], [⟨1, 1, 0, oneHour, ReservationStatus.Confirmed, none, 0⟩]⟩
                  1).2.reservations)) :=
  ⟨by simp,
    reservation_mutation_discipline
      ⟨[], [⟨1, 1, 0, oneHour, ReservationStatus.Confirmed, none, 0⟩]⟩
      (cancel_reservation
        ⟨[], [⟨1, 1, 0, oneHour, ReservationStatus.Confirmed, none, 0⟩]⟩ 1).2
      (Step.cancel ⟨[], [⟨1, 1, 0, oneHour, ReservationStatus.Confirmed, none, 0⟩]⟩ 1)
      ⟨1, 1, 0, oneHour, ReservationStatus.Confirmed, none, 0⟩ (by simp)⟩

/-- C9: the status-string conversion is total with values Cancelled
and Confirmed only; it yields Cancelled exactly when the lowercased
string is cancelled; the empty string, an unknown string and a
corrupt string are all mapped to Confirmed, while any casing of
cancelled is mapped to Cancelled. -/
theorem status_from_string_spec :
    (∀ s : String,
        statusFromString s = ReservationStatus.Cancelled ↔ rustToLowercase s = "cancelled")
    ∧ (∀ s : String, statusFromString s ≠ ReservationStatus.Cancelled →
        statusFromString s = ReservationStatus.Confirmed)
    ∧ statusFromString "" = ReservationStatus.Confirmed
    ∧ statusFromString "garbage" = ReservationStatus.Confirmed
    ∧ statusFromString "CANCELLED" = ReservationStatus.Cancelled := by
  refine ⟨?_, ?_, by decide, by decide, by decide⟩
  · intro s
    constructor
    · intro h
      by_contra hne
      simp [statusFromString, hne] at h
    · intro h
      simp [statusFromString, h]
  · intro s h
    by_cases hc : rustToLowercase s = "cancelled"
    · exact absurd (by simp [statusFromString, hc]) h
    · simp [statusFromString, hc]

/-- Witness for C9 at a concrete input: a mixed-case status string. -/
theorem status_from_string_spec_witness :
    rustToLowercase "Cancelled" = "cancelled"
      ∧ statusFromString "Cancelled" = ReservationStatus.Cancelled :=
  ⟨by decide, (status_from_string_spec.1 "Cancelled").mpr (by decide)⟩

/-- C10: when the supplied protobuf timestamp is out of range for
chrono (invalid seconds, or an invalid nanosecond part after the
i32-to-u32 cast), the service conversion substitutes the current
wall-clock time instead of failing, and the create_reservation slot
validation then proceeds on the substituted value rather than
rejecting the request with InvalidArgument. -/
theorem timestamp_out_of_range_fallback (now : Int) (ts : ProtoTimestamp)
    (hinv : chronoFromTimestamp ts.seconds (nanosAsU32 ts.nanos) = none) :
    timestamp_to_datetime now ts = now
    ∧ ∀ ts2 : ProtoTimestamp, now < timestamp_to_datetime now ts2 →
        parseSlotTimes now (some ts) (some ts2)
          = Except.ok (now, timestamp_to_datetime now ts2) := by
  have h1 : timestamp_to_datetime now ts = now := by
    simp [timestamp_to_datetime, hinv]
  refine ⟨h1, ?_⟩
  intro ts2 hlt
  simp only [parseSlotTimes, h1]
  rw [if_neg]
  simp only [decide_eq_true_eq]
  omega

/-- Witness for C10 at a concrete input: nanos equal to minus one,
which the u32 cast turns into an invalid nanosecond count. -/
theorem timestamp_out_of_range_fallback_witness :
    chronoFromTimestamp (ProtoTimestamp.mk 0 (-1)).seconds
        (nanosAsU32 (ProtoTimestamp.mk 0 (-1)).nanos) = none
    ∧ timestamp_to_datetime 5 (ProtoTimestamp.mk 0 (-1)) = 5 :=
  ⟨by decide, (timestamp_out_of_range_fallback 5 (ProtoTimestamp.mk 0 (-1)) (by decide)).1⟩

end Reservations
